import Mathlib

/-!
Verification of the conversation-and-tool-call orchestration core of the
`universa` agent library, against its natural-language specification.

The Lean definitions below are shallow embeddings of the Python source:

* `ChatHistory` and its operations embed `universa/agents/chat.py`;
* `DynChatHistory.save_message` embeds the dynamically-typed list branch of
  `ChatHistory.save_message` (Python lists are heterogeneous, so the embedded
  message store holds `PyVal` values there);
* `updateResponseTime` embeds the running-statistics update of
  `BaseAgent.invoke` (`universa/agents/agent.py`), with Python floats modelled
  as rationals;
* `extractLoop` / `extract_json_output` embed `BaseAgent._extract_json_output`;
* `retryLoop` / `retry` embed the `retry` decorator of
  `universa/utils/execution.py`;
* `execute_tool`, `create_tool_call_messages` and `handle_tool_calls` embed
  `BaseTool.execute_tool` (`universa/tools/tool.py`) and
  `OpenAI.handle_tool_calls` (`universa/models/openai.py`);
* `invoke_request` embeds the request-construction step of `BaseAgent.invoke`.

External capabilities (the remote generation endpoint, `json.loads`, regex
extraction, pydantic-style schema validation, tool callables) are modelled as
explicit function parameters, so that the control flow of the embedded code is
exactly that of the source.
-/

namespace Universa

/-- Message record (`BaseMessage` with the fields used by the orchestration
core: a role string and a content string). `to_dict` and
`message_schema.validate(..., to_dict=False)` are mutually inverse on these
records, so both are the identity in the embedding. -/
structure Msg where
  role : String
  content : String
deriving DecidableEq, Repr

/-- Per-message metadata (`Metadata = Dict[str, Any]`), modelled as an
association list; the empty list models the empty (falsy) dict. -/
abbrev Metadata := List (String × String)

/-- The value appended as metadata by `save_message`:
`metadata if metadata else {}` (a missing or empty dict becomes `{}`). -/
def mdval : Option Metadata → Metadata
  | none => []
  | some m => if m = [] then [] else m

/-- State of `ChatHistory` (`universa/agents/chat.py`): the message list, the
parallel metadata list, the `conv_chunks` chunk-boundary list, and the
`conv_chunk` attribute that `get_history` writes in its no-system-prompt
branch (absent, i.e. `none`, until that branch runs). -/
structure ChatHistory where
  messages : List Msg
  metadata : List Metadata
  conv_chunks : List Nat
  conv_chunk : Option (List Int)
deriving DecidableEq, Repr

/-- Freshly constructed `ChatHistory()` with no arguments. -/
def ChatHistory.empty : ChatHistory := ⟨[], [], [], none⟩

/-- `ChatHistory.get_system_prompt`: reads `self.messages[0]` and returns it
iff its role is `"system"`. The source raises `IndexError` on an empty
history; no theorem below touches that case, so the embedding returns `none`
there. `deepcopy` is the identity on immutable values. -/
def ChatHistory.get_system_prompt (h : ChatHistory) : Option Msg :=
  match h.messages with
  | [] => none
  | m :: _ => if m.role = "system" then some m else none

/-- Return value of `ChatHistory.get_history` together with the state of the
history object after the call (the source mutates `self.conv_chunks` or
`self.conv_chunk` in its windowing branches). -/
structure HistoryResult where
  messages : List Msg
  metadata : Option (List Metadata)
  state : ChatHistory
deriving DecidableEq, Repr

/-- `ChatHistory.get_history(memory_window, include_metadata)`. The window is
`Optional[int]`; callers pass non-negative windows, so it is embedded as
`Option Nat`, with Python truthiness `memory_window and ...` becoming
`w ≠ 0 ∧ ...`. Python's `conv_chunks[-w:]` and `conv_chunks[:-w]` with
`0 < w < len` are `drop (len - w)` and `take (len - w)`. In the windowing
branch `new_conv_chunks` has length `w ≥ 1`, so `new_conv_chunks[0]` is its
head (`headD 0` is never the default there). -/
def ChatHistory.get_history (h : ChatHistory) (memory_window : Option Nat)
    (include_metadata : Bool) : HistoryResult :=
  match memory_window with
  | some w =>
    if w ≠ 0 ∧ w < h.conv_chunks.length then
      let new_conv_chunks := h.conv_chunks.drop (h.conv_chunks.length - w)
      let old_conv_chunks := h.conv_chunks.take (h.conv_chunks.length - w)
      let index_adjustment : Int :=
        old_conv_chunks.foldl (fun a b => a + (b : Int)) 0
      match h.get_system_prompt with
      | some sys =>
        { messages := sys :: h.messages.drop (new_conv_chunks.headD 0),
          metadata :=
            if include_metadata then
              some ([] :: h.metadata.drop (new_conv_chunks.headD 0))
            else none,
          state := { h with conv_chunks := 1 :: new_conv_chunks } }
      | none =>
        { messages := h.messages.drop (new_conv_chunks.headD 0),
          metadata :=
            if include_metadata then
              some (h.metadata.drop (new_conv_chunks.headD 0))
            else none,
          state :=
            { h with
              conv_chunk := some (new_conv_chunks.map (fun i => (i : Int) - index_adjustment)) } }
    else
      { messages := h.messages,
        metadata := if include_metadata then some h.metadata else none,
        state := h }
  | none =>
    { messages := h.messages,
      metadata := if include_metadata then some h.metadata else none,
      state := h }

/-- `ChatHistory.save_message` for a single `BaseMessage` argument: append the
message, record a chunk boundary at the new length when the role is `system`
or `assistant` or `is_end_conv` is set, then append the metadata entry. -/
def ChatHistory.save_message (h : ChatHistory) (m : Msg) (is_end_conv : Bool)
    (metadata : Option Metadata) : ChatHistory :=
  let messages := h.messages ++ [m]
  { messages := messages,
    conv_chunks :=
      if m.role = "system" ∨ m.role = "assistant" ∨ is_end_conv = true then
        h.conv_chunks ++ [messages.length]
      else h.conv_chunks,
    metadata := h.metadata ++ [mdval metadata],
    conv_chunk := h.conv_chunk }

/-- `ChatHistory.serialize`: the ordered `{message, metadata}` pairs,
`zip(self.messages, self.metadata)` with `message.to_dict()` the identity. -/
def ChatHistory.serialize (h : ChatHistory) : List (Msg × Metadata) :=
  h.messages.zip h.metadata

/-- `ChatHistory.deserialize`: start from `cls()` and replay `save_message`
for every record in order (with the default `is_end_conv=False`);
`message_schema.validate(message.to_dict(), to_dict=False)` reconstructs the
message record identically. -/
def ChatHistory.deserialize (serialized : List (Msg × Metadata)) : ChatHistory :=
  serialized.foldl (fun h item => h.save_message item.1 false (some item.2))
    ChatHistory.empty

/-- One call to `save_message` with a single message: the message, the
`is_end_conv` flag, and the optional metadata argument. -/
structure SaveCall where
  msg : Msg
  is_end_conv : Bool
  metadata : Option Metadata
deriving DecidableEq, Repr

/-- A history built by a sequence of single-message `save_message` calls
starting from a fresh `ChatHistory()`. -/
def buildHistory (calls : List SaveCall) : ChatHistory :=
  calls.foldl (fun h c => h.save_message c.msg c.is_end_conv c.metadata)
    ChatHistory.empty

/-- Python exceptions raised by the embedded code. `retry` singles out
`TypeError`; every other kind is an ordinary `Exception` for it. -/
inductive PyExc where
  | typeError (msg : String)
  | attributeError (msg : String)
  | otherError (msg : String)
deriving DecidableEq, Repr

/-- A Python value that may be stored in `self.messages` by the dynamically
typed `save_message`: either a `BaseMessage` or (through the bug in the list
branch) a whole Python list of messages. -/
inductive PyVal where
  | msg (m : Msg)
  | pylist (ms : List Msg)
deriving DecidableEq, Repr

/-- `ChatHistory` state as manipulated by the dynamically typed
`save_message`: the message store holds arbitrary Python values. -/
structure DynChatHistory where
  messages : List PyVal
  metadata : List Metadata
  conv_chunks : List Nat
deriving DecidableEq, Repr

/-- `ChatHistory.save_message` with both runtime branches, returning the
mutated state together with the exception, if any, that escapes the call.
In the list branch the loop body runs `self.messages.append(message)` — the
whole list, not the element `msg` — and then evaluates `message.role`, which
raises `AttributeError` on a list; for an empty list the loop body never runs
and control falls through to `self.metadata.append(...)`. State mutations made
before an exception persist on the object. -/
def DynChatHistory.save_message (h : DynChatHistory) (message : PyVal)
    (is_end_conv : Bool) (metadata : Option Metadata) :
    DynChatHistory × Option PyExc :=
  match message with
  | .msg m =>
    let messages := h.messages ++ [PyVal.msg m]
    (⟨messages,
      h.metadata ++ [mdval metadata],
      if m.role = "system" ∨ m.role = "assistant" ∨ is_end_conv = true then
        h.conv_chunks ++ [messages.length]
      else h.conv_chunks⟩, none)
  | .pylist [] =>
    ({ h with metadata := h.metadata ++ [mdval metadata] }, none)
  | .pylist (m :: ms) =>
    ({ h with messages := h.messages ++ [PyVal.pylist (m :: ms)] },
      some (.attributeError "list object has no attribute role"))

/-- The running-statistics update at the end of `BaseAgent.invoke`
(`universa/agents/agent.py` lines 272-274): `self.popularity += 1` followed by
`self.response_time = ((self.response_time * self.popularity) + (t1 - t0))
/ self.popularity`. Note that `popularity` is incremented before it is used on
both sides. Floats are modelled as rationals. -/
def updateResponseTime (response_time : ℚ) (popularity : ℕ) (elapsed : ℚ) :
    ℚ × ℕ :=
  let new_popularity := popularity + 1
  ((response_time * (new_popularity : ℚ) + elapsed) / (new_popularity : ℚ),
    new_popularity)

/-- Modelled from the spec's words (for comparison with `updateResponseTime`):
"update rolling-average latency as `(prev_avg * prev_count + elapsed) /
new_count`", where `new_count = prev_count + 1`. -/
def specRollingAverage (prev_avg : ℚ) (prev_count : ℕ) (elapsed : ℚ) : ℚ :=
  (prev_avg * (prev_count : ℚ) + elapsed) / ((prev_count : ℚ) + 1)

/-- External capabilities used by `BaseAgent._extract_json_output`:
`_extract_from_string` (regex span extraction), `json.loads`,
`self.output_schema.validate`, and the content produced by the k-th corrective
re-generation (`parse_response(model.generate(...))` after the k-th corrective
user message). -/
structure ExtractOracle (J O : Type) where
  extract : String → Option String
  parseJson : String → Except String J
  validate : J → Except String O
  regen : Nat → String

/-- What `_extract_json_output` returns: the validated structured value, the
raw `extracted_content` (possibly Python `None`), or the implicit `None` when
`range(max_retries)` is empty and the loop body never runs. -/
inductive ExtractResult (O : Type) where
  | validated (o : O)
  | raw (s : Option String)
  | loopExhausted
deriving DecidableEq, Repr

/-- The body of the `for i in range(self.max_retries)` loop of
`_extract_json_output`, with `remaining + 1` iterations left (so the current
index is `i = max_retries - remaining - 1`, and `i != max_retries - 1` is
`remaining ≠ 0`). `isInvalid` is the `is_invalid` flag, which the source
initialises once, before the loop, and never resets; `regens` counts the
corrective re-generations performed so far (one corrective user message plus
one `generate` call each). The pair returned is the result together with the
total number of corrective re-generations. -/
def extractLoop {J O : Type} (env : ExtractOracle J O) (autoReinvoke : Bool) :
    Nat → String → Bool → Nat → ExtractResult O × Nat
  | 0, _content, _isInvalid, regens => (.loopExhausted, regens)
  | remaining + 1, content, isInvalid, regens =>
    match env.extract content with
    | some ec =>
      match env.parseJson ec with
      | .error _ =>
        if remaining ≠ 0 ∧ autoReinvoke then
          extractLoop env autoReinvoke remaining (env.regen regens) true
            (regens + 1)
        else (.raw (some ec), regens)
      | .ok j =>
        if isInvalid then
          -- `if not is_invalid:` fails, the validation step is skipped, and
          -- the `if is_invalid or extracted_content is None:` branch is taken.
          if remaining ≠ 0 ∧ autoReinvoke then
            extractLoop env autoReinvoke remaining (env.regen regens) true
              (regens + 1)
          else (.raw (some ec), regens)
        else
          match env.validate j with
          | .ok o => (.validated o, regens)
          | .error _ =>
            if remaining ≠ 0 ∧ autoReinvoke then
              extractLoop env autoReinvoke remaining (env.regen regens) true
                (regens + 1)
            else (.raw (some ec), regens)
    | none =>
      if remaining ≠ 0 ∧ autoReinvoke then
        extractLoop env autoReinvoke remaining (env.regen regens) isInvalid
          (regens + 1)
      else (.raw none, regens)

/-- `BaseAgent._extract_json_output(content, model_kwargs)` with the given
`max_retries` and `auto_reinvoke` settings. -/
def extract_json_output {J O : Type} (env : ExtractOracle J O)
    (max_retries : Nat) (auto_reinvoke : Bool) (content : String) :
    ExtractResult O × Nat :=
  extractLoop env auto_reinvoke max_retries content false 0

/-- The outcome of a call wrapped by the `retry` decorator: the value of the
first successful attempt, a re-raised exception, or the generic
`Exception(f"Function ... failed ... times")` raised when the attempt loop
never set `_exc` (only possible with `num_retries ≤ 0`). -/
inductive RetryResult (α : Type) where
  | ok (a : α)
  | raised (e : PyExc)
  | failedGeneric
deriving DecidableEq, Repr

/-- The attempt loop of the `retry` decorator (`universa/utils/execution.py`):
`attempt i` is the outcome of the i-th call of the wrapped function, `fuel` is
the number of attempts left, `lastExc` is `_exc`. A `TypeError` is re-raised
immediately; any other exception is recorded in `_exc` and the loop continues;
after the loop, `_exc` is re-raised if set. -/
def retryLoop {α : Type} (attempt : Nat → Except PyExc α) :
    Nat → Nat → Option PyExc → RetryResult α
  | _i, 0, lastExc =>
    match lastExc with
    | some e => .raised e
    | none => .failedGeneric
  | i, fuel + 1, _lastExc =>
    match attempt i with
    | .ok a => .ok a
    | .error e =>
      match e with
      | .typeError m => .raised (.typeError m)
      | .attributeError m => retryLoop attempt (i + 1) fuel (some (.attributeError m))
      | .otherError m => retryLoop attempt (i + 1) fuel (some (.otherError m))

/-- `retry(num_retries=n)(f)(...)`: run up to `n` attempts of `f`. -/
def retry {α : Type} (num_retries : Nat) (attempt : Nat → Except PyExc α) :
    RetryResult α :=
  retryLoop attempt 0 num_retries none

/-- A registered tool as used by `BaseTool.execute_tool`: its
`input_schema.validate(..., to_dict=True)` capability and its callable.
`P` is the type of raw `function_params`, `V` the validated input, `R` the
callable's return type. -/
structure PyTool (P V R : Type) where
  validate : P → Except String V
  func : V → R

/-- `ToolCall`: the function name, raw parameters and call id parsed from the
model reply. -/
structure PyToolCall (P : Type) where
  function_name : String
  function_params : P
  id : String

/-- Errors escaping the tool-execution path: the
`ValueError("Function ... is not available in the tool registry.")` raised
when `tool_registry.get_tool` finds nothing (the spec's `UnknownTool`), the
schema `ValidationError`, and the `KeyError` that
`create_tool_call_messages` would raise on a missing result id. -/
inductive ToolError where
  | unknownTool (name : String)
  | validationError (msg : String)
  | keyErr (id : String)
deriving DecidableEq, Repr

/-- `BaseTool.execute_tool(tool_call_infos, tool_registry)`: sequentially look
each call's name up in the registry (`get_tool` returns `None` when absent,
and the subsequent `isinstance` check raises `ValueError`), validate the
parameters, run the callable, and collect `{call_id: result}` (modelled as an
association list in insertion order); the first failure aborts the batch. -/
def execute_tool {P V R : Type} (tool_registry : String → Option (PyTool P V R)) :
    List (PyToolCall P) → List (String × R) → Except ToolError (List (String × R))
  | [], results => .ok results
  | info :: rest, results =>
    match tool_registry info.function_name with
    | none => .error (.unknownTool info.function_name)
    | some tool =>
      match tool.validate info.function_params with
      | .error e => .error (.validationError e)
      | .ok input =>
        execute_tool tool_registry rest (results ++ [(info.id, tool.func input)])

/-- `OpenAI.create_tool_call_messages`: one `role="tool"` message per tool
call, with the rendered execution result looked up by call id (a missing id
would raise `KeyError` in the source's `tool_call_results[tool_call_id]`). -/
def create_tool_call_messages {P R : Type} (render : R → String) :
    List (PyToolCall P) → List (String × R) → Except ToolError (List Msg)
  | [], _results => .ok []
  | info :: rest, results =>
    match results.lookup info.id with
    | none => .error (.keyErr info.id)
    | some r =>
      match create_tool_call_messages render rest results with
      | .error e => .error e
      | .ok ms => .ok (⟨"tool", render r⟩ :: ms)

/-- Outcome of `OpenAI.handle_tool_calls` once a tool call has been detected:
the raw tool-call list (when `auto_execute_tool` is false), the re-generation
after successful execution (the new reply is external; the collected results
are recorded), or an exception propagating out of the call. -/
inductive HandleResult (P R : Type) where
  | manual (infos : List (PyToolCall P))
  | regenerated (results : List (String × R))
  | raised (e : ToolError)

/-- The body of `OpenAI.handle_tool_calls` after `get_tool_call_info` has
returned the parsed calls `infos` (the `None` early return is upstream of the
modelled fragment). `tm` is the assistant tool-call message
(`OpenAIOutputMessage(**response_message.model_dump())`), which the source
appends with `chat_history.messages.append` — bypassing `save_message`, so
neither `metadata` nor `conv_chunks` changes for it. On success the tool
result messages are saved through `save_message` and the model is re-invoked
with `chat_history.get_history(memory_window=memory_window)[0]` (which may
itself mutate the history). The state of `chat_history` when the call returns
or raises is returned alongside the outcome. -/
def handle_tool_calls {P V R : Type} (h : ChatHistory) (tm : Msg)
    (infos : List (PyToolCall P)) (tool_registry : String → Option (PyTool P V R))
    (render : R → String) (auto_execute_tool : Bool)
    (memory_window : Option Nat) : HandleResult P R × ChatHistory :=
  let h1 := { h with messages := h.messages ++ [tm] }
  if auto_execute_tool = false then (.manual infos, h1)
  else
    match execute_tool tool_registry infos [] with
    | .error e => (.raised e, h1)
    | .ok results =>
      match create_tool_call_messages render infos results with
      | .error e => (.raised e, h1)
      | .ok msgs =>
        let h2 := msgs.foldl (fun hh m => hh.save_message m false none) h1
        (.regenerated results, (h2.get_history memory_window false).state)

/-- Step 3 of `BaseAgent.invoke`: `system_message = self.chat_history.messages[0]`
(an `IndexError` on an empty history, hence `none` there) and the request list
`[system_message] + self.chat_history.get_history(memory_window=self.memory_window-1)[0]`.
For `memory_window ≥ 1` the truncated subtraction agrees with Python's
`self.memory_window - 1`. -/
def invoke_request (h : ChatHistory) (memory_window : Nat) : Option (List Msg) :=
  match h.messages with
  | [] => none
  | m0 :: _ =>
    some (m0 :: (h.get_history (some (memory_window - 1)) false).messages)

/-! ## Helper lemmas -/

theorem get_system_prompt_some (h : ChatHistory) (m0 : Msg) (rest : List Msg)
    (hm : h.messages = m0 :: rest) (hrole : m0.role = "system") :
    h.get_system_prompt = some m0 := by
  simp [ChatHistory.get_system_prompt, hm, hrole]

theorem get_system_prompt_none (h : ChatHistory) (m0 : Msg) (rest : List Msg)
    (hm : h.messages = m0 :: rest) (hrole : ¬ m0.role = "system") :
    h.get_system_prompt = none := by
  simp [ChatHistory.get_system_prompt, hm, hrole]

theorem mem_get_history_system (h : ChatHistory) (mw : Option Nat) (im : Bool)
    (m0 : Msg) (rest : List Msg) (hm : h.messages = m0 :: rest)
    (hrole : m0.role = "system") :
    m0 ∈ (h.get_history mw im).messages := by
  cases mw with
  | none => simp [ChatHistory.get_history, hm]
  | some w =>
    rcases Decidable.em (w ≠ 0 ∧ w < h.conv_chunks.length) with hc | hc
    · simp only [ChatHistory.get_history, if_pos hc,
        get_system_prompt_some h m0 rest hm hrole]
      exact List.mem_cons_self _ _
    · simp only [ChatHistory.get_history, if_neg hc]
      simp [hm]

/-! ## Claim theorems -/

/-- C1 (code_bug evaluation): passing a homogeneous list of messages to
`ChatHistory.save_message` breaks the invariant `len(messages) ==
len(metadata)`. On a fresh history, `save_message([])` appends a metadata
entry but no message (lengths 0 and 1, with no exception), and
`save_message([user_msg])` appends the list object itself to `messages` and
raises `AttributeError` at `message.role` before `metadata` is extended
(lengths 1 and 0). -/
theorem save_message_batch_breaks_invariant :
    ((DynChatHistory.save_message ⟨[], [], []⟩ (.pylist []) false none).2 = none
      ∧ (DynChatHistory.save_message ⟨[], [], []⟩ (.pylist []) false none).1.messages.length = 0
      ∧ (DynChatHistory.save_message ⟨[], [], []⟩ (.pylist []) false none).1.metadata.length = 1)
    ∧ ((DynChatHistory.save_message ⟨[], [], []⟩ (.pylist [⟨"user", "hi"⟩]) false none).2
          = some (.attributeError "list object has no attribute role")
      ∧ (DynChatHistory.save_message ⟨[], [], []⟩ (.pylist [⟨"user", "hi"⟩]) false none).1.messages.length = 1
      ∧ (DynChatHistory.save_message ⟨[], [], []⟩ (.pylist [⟨"user", "hi"⟩]) false none).1.metadata.length = 0) := by
  decide

/-- C2: for every history whose first message has role `system`, the message
list returned by `get_history(memory_window=k)` contains that system message,
for every window size `k` (including no window at all) and whether or not
metadata is requested. -/
theorem window_includes_system_message (h : ChatHistory) (mw : Option Nat)
    (im : Bool) (m0 : Msg) (rest : List Msg) (hm : h.messages = m0 :: rest)
    (hrole : m0.role = "system") :
    m0 ∈ (h.get_history mw im).messages :=
  mem_get_history_system h mw im m0 rest hm hrole

/-- C2 witness: a concrete five-message history whose three exchanges exceed a
window of one, instantiating `window_includes_system_message`. -/
theorem window_includes_system_message_witness :
    (⟨"system", "p"⟩ : Msg) ∈
      ((buildHistory [⟨⟨"system", "p"⟩, false, none⟩, ⟨⟨"user", "q"⟩, false, none⟩,
        ⟨⟨"assistant", "a"⟩, false, none⟩, ⟨⟨"user", "q2"⟩, false, none⟩,
        ⟨⟨"assistant", "a2"⟩, false, none⟩]).get_history (some 1) false).messages :=
  window_includes_system_message _ (some 1) false ⟨"system", "p"⟩
    [⟨"user", "q"⟩, ⟨"assistant", "a"⟩, ⟨"user", "q2"⟩, ⟨"assistant", "a2"⟩]
    (by decide) rfl

/-- C4 (code_bug evaluation): the source increments `popularity` before using
it, so the stored value after invocations of 2.0s and 4.0s is 4.0, while the
spec's incremental-mean formula gives 3.0. -/
theorem response_time_update_off_by_one :
    (updateResponseTime 0 0 2).1 = 2 ∧ (updateResponseTime 0 0 2).2 = 1
    ∧ (updateResponseTime (updateResponseTime 0 0 2).1
        (updateResponseTime 0 0 2).2 4).1 = 4
    ∧ specRollingAverage 0 0 2 = 2
    ∧ specRollingAverage (specRollingAverage 0 0 2) 1 4 = 3
    ∧ (updateResponseTime (updateResponseTime 0 0 2).1
        (updateResponseTime 0 0 2).2 4).1 ≠ (3 : ℚ) := by
  norm_num [updateResponseTime, specRollingAverage]

theorem mdval_some_mdval (md : Option Metadata) :
    mdval (some (mdval md)) = mdval md := by
  cases md with
  | none => rfl
  | some m => by_cases hm : m = [] <;> simp [mdval, hm]

theorem foldl_save_messages (calls : List SaveCall) :
    ∀ h : ChatHistory,
      (calls.foldl (fun h c => h.save_message c.msg c.is_end_conv c.metadata) h).messages
        = h.messages ++ calls.map (fun c => c.msg) := by
  induction calls with
  | nil => intro h; simp
  | cons c cs ih =>
    intro h
    rw [List.foldl_cons, ih]
    simp [ChatHistory.save_message]

theorem foldl_save_metadata (calls : List SaveCall) :
    ∀ h : ChatHistory,
      (calls.foldl (fun h c => h.save_message c.msg c.is_end_conv c.metadata) h).metadata
        = h.metadata ++ calls.map (fun c => mdval c.metadata) := by
  induction calls with
  | nil => intro h; simp
  | cons c cs ih =>
    intro h
    rw [List.foldl_cons, ih]
    simp [ChatHistory.save_message]

theorem serialize_buildHistory (calls : List SaveCall) :
    (buildHistory calls).serialize
      = calls.map (fun c => (c.msg, mdval c.metadata)) := by
  unfold ChatHistory.serialize buildHistory
  rw [foldl_save_messages, foldl_save_metadata]
  simp [ChatHistory.empty, List.zip_map']

theorem replay_save_eq (calls : List SaveCall) :
    ∀ h : ChatHistory,
      (∀ c ∈ calls, c.is_end_conv = true →
        c.msg.role = "system" ∨ c.msg.role = "assistant") →
      calls.foldl (fun h c => h.save_message c.msg false (some (mdval c.metadata))) h
        = calls.foldl (fun h c => h.save_message c.msg c.is_end_conv c.metadata) h := by
  induction calls with
  | nil => intro h _; rfl
  | cons c cs ih =>
    intro h hend
    have hstep : h.save_message c.msg false (some (mdval c.metadata))
        = h.save_message c.msg c.is_end_conv c.metadata := by
      have hc : c.is_end_conv = true →
          c.msg.role = "system" ∨ c.msg.role = "assistant" :=
        hend c (List.mem_cons_self c cs)
      cases hie : c.is_end_conv with
      | false => simp [ChatHistory.save_message, mdval_some_mdval]
      | true =>
        rcases hc hie with hr | hr <;>
          simp [ChatHistory.save_message, mdval_some_mdval, hr]
    rw [List.foldl_cons, List.foldl_cons, hstep]
    exact ih _ (fun d hd => hend d (List.mem_cons_of_mem _ hd))

/-- C3 counterexample: a history built by a single `save_message` call with
the end-of-conversation flag set on a `user` message round-trips its messages
but not its `conv_chunks`: the replay in `deserialize` always passes
`is_end_conv=False`, so the chunk boundary `[1]` is lost. -/
theorem roundtrip_loses_end_conv_chunk :
    (buildHistory [⟨⟨"user", "bye"⟩, true, none⟩]).conv_chunks = [1]
    ∧ (ChatHistory.deserialize
        (buildHistory [⟨⟨"user", "bye"⟩, true, none⟩]).serialize).conv_chunks = []
    ∧ (ChatHistory.deserialize
        (buildHistory [⟨⟨"user", "bye"⟩, true, none⟩]).serialize).messages
        = (buildHistory [⟨⟨"user", "bye"⟩, true, none⟩]).messages := by
  decide

/-- C3 amended: for every history built by single-message `save_message`
calls in which the end-of-conversation flag is only ever set on messages whose
role is `system` or `assistant` (so every chunk boundary is role-derived),
`deserialize(serialize(h))` reproduces both `messages` and `conv_chunks`. -/
theorem roundtrip_preserves_messages_and_chunks (calls : List SaveCall)
    (hend : ∀ c ∈ calls, c.is_end_conv = true →
      c.msg.role = "system" ∨ c.msg.role = "assistant") :
    (ChatHistory.deserialize (buildHistory calls).serialize).messages
        = (buildHistory calls).messages
    ∧ (ChatHistory.deserialize (buildHistory calls).serialize).conv_chunks
        = (buildHistory calls).conv_chunks := by
  have hfull : ChatHistory.deserialize (buildHistory calls).serialize
      = buildHistory calls := by
    rw [serialize_buildHistory]
    unfold ChatHistory.deserialize buildHistory
    rw [List.foldl_map]
    exact replay_save_eq calls ChatHistory.empty hend
  rw [hfull]
  exact ⟨rfl, rfl⟩

/-- C3 witness: the round-trip theorem applied to a concrete three-message
history (with metadata and a role-derived end-of-conversation boundary). -/
theorem roundtrip_preserves_messages_and_chunks_witness :
    (ChatHistory.deserialize
        (buildHistory [⟨⟨"system", "p"⟩, false, none⟩,
          ⟨⟨"user", "q"⟩, false, some [("rating", "7")]⟩,
          ⟨⟨"assistant", "a"⟩, true, none⟩]).serialize).messages
      = (buildHistory [⟨⟨"system", "p"⟩, false, none⟩,
          ⟨⟨"user", "q"⟩, false, some [("rating", "7")]⟩,
          ⟨⟨"assistant", "a"⟩, true, none⟩]).messages
    ∧ (ChatHistory.deserialize
        (buildHistory [⟨⟨"system", "p"⟩, false, none⟩,
          ⟨⟨"user", "q"⟩, false, some [("rating", "7")]⟩,
          ⟨⟨"assistant", "a"⟩, true, none⟩]).serialize).conv_chunks
      = (buildHistory [⟨⟨"system", "p"⟩, false, none⟩,
          ⟨⟨"user", "q"⟩, false, some [("rating", "7")]⟩,
          ⟨⟨"assistant", "a"⟩, true, none⟩]).conv_chunks :=
  roundtrip_preserves_messages_and_chunks _ (by decide)

/-- Oracle for evaluating C5: every content is its own extracted span, the
span `"good"` parses, every other span is malformed, validation accepts every
parsed value, and the corrective re-generation produces `"good"`. -/
def c5Env : ExtractOracle String String :=
  { extract := fun s => some s,
    parseJson := fun s => if s = "good" then .ok s else .error "Expecting value",
    validate := fun j => .ok j,
    regen := fun _ => "good" }

/-- C5 (code_bug evaluation): `_extract_json_output` initialises `is_invalid`
before the loop and never resets it. With `max_retries = 2` and auto-reinvoke
on, a malformed first attempt sets the flag; on the retry attempt the span
`"good"` is found, parses, and would validate, yet the sticky flag makes the
loop skip validation and return the raw extracted text (after one corrective
re-generation) instead of the validated structured value. -/
theorem extract_retry_sticky_invalid_flag :
    c5Env.extract "good" = some "good"
    ∧ c5Env.parseJson "good" = .ok "good"
    ∧ c5Env.validate "good" = .ok "good"
    ∧ extract_json_output c5Env 2 true "bad" = (.raw (some "good"), 1) :=
  ⟨rfl, rfl, rfl, rfl⟩

/-- Oracle for the C6 witness: every span is malformed JSON. -/
def c6Env : ExtractOracle String String :=
  { extract := fun s => some s,
    parseJson := fun _ => .error "Expecting value",
    validate := fun j => .ok j,
    regen := fun _ => "retry-content" }

/-- C6: with auto-reinvoke on and `max_retries = 2`, when every content has
an extractable span and every span is malformed JSON, the extraction loop
performs exactly one corrective re-generation (count 1) and then returns the
raw span extracted from the re-generated content; the embedded loop is a
total function, so nothing is raised. -/
theorem malformed_json_single_reinvoke {J O : Type} (env : ExtractOracle J O)
    (content : String)
    (hext : ∀ s, ∃ e, env.extract s = some e)
    (hbad : ∀ s, ∃ msg, env.parseJson s = .error msg) :
    extract_json_output env 2 true content
      = (.raw (env.extract (env.regen 0)), 1) := by
  obtain ⟨e0, he0⟩ := hext content
  obtain ⟨m0, hm0⟩ := hbad e0
  obtain ⟨e1, he1⟩ := hext (env.regen 0)
  obtain ⟨m1, hm1⟩ := hbad e1
  simp [extract_json_output, extractLoop, he0, hm0, he1, hm1]

/-- C6 witness: the single-reinvoke theorem at a concrete oracle whose spans
never parse. -/
theorem malformed_json_single_reinvoke_witness :
    extract_json_output c6Env 2 true "first-content"
      = (.raw (some "retry-content"), 1) :=
  malformed_json_single_reinvoke c6Env "first-content"
    (fun s => ⟨s, rfl⟩) (fun _ => ⟨"Expecting value", rfl⟩)

theorem retryLoop_all_other {α : Type} (attempt : Nat → Except PyExc α) :
    ∀ (fuel : Nat) (i : Nat) (exc : Option PyExc), 0 < fuel →
      (∀ k, k < fuel → ∃ m, attempt (i + k) = .error (.otherError m)) →
      ∃ m, attempt (i + fuel - 1) = .error (.otherError m)
        ∧ retryLoop attempt i fuel exc = .raised (.otherError m) := by
  intro fuel
  induction fuel with
  | zero => intro i exc h; omega
  | succ f ihf =>
    intro i exc _ hall
    obtain ⟨m0, hm0⟩ := hall 0 (by omega)
    rw [Nat.add_zero] at hm0
    cases f with
    | zero =>
      refine ⟨m0, by simpa using hm0, ?_⟩
      simp [retryLoop, hm0]
    | succ f' =>
      have hall' : ∀ k, k < f' + 1 →
          ∃ m, attempt (i + 1 + k) = .error (.otherError m) := by
        intro k hk
        obtain ⟨m, hm⟩ := hall (k + 1) (by omega)
        refine ⟨m, ?_⟩
        have harith : i + 1 + k = i + (k + 1) := by omega
        rw [harith]
        exact hm
      obtain ⟨m, hm, hres⟩ := ihf (i + 1) (some (.otherError m0)) (by omega) hall'
      refine ⟨m, ?_, ?_⟩
      · have harith : i + (f' + 1 + 1) - 1 = i + 1 + (f' + 1) - 1 := by omega
        rw [harith]
        exact hm
      · simp only [retryLoop, hm0]
        exact hres

theorem retryLoop_typeError {α : Type} (attempt : Nat → Except PyExc α) :
    ∀ (j : Nat) (i : Nat) (fuel : Nat) (exc : Option PyExc) (m : String),
      j < fuel →
      attempt (i + j) = .error (.typeError m) →
      (∀ k, k < j → ∃ m2, attempt (i + k) = .error (.otherError m2)) →
      retryLoop attempt i fuel exc = .raised (.typeError m) := by
  intro j
  induction j with
  | zero =>
    intro i fuel exc m hj hje _
    cases fuel with
    | zero => omega
    | succ f =>
      rw [Nat.add_zero] at hje
      simp [retryLoop, hje]
  | succ j' ihj =>
    intro i fuel exc m hj hje hprev
    cases fuel with
    | zero => omega
    | succ f =>
      obtain ⟨m0, hm0⟩ := hprev 0 (by omega)
      rw [Nat.add_zero] at hm0
      simp only [retryLoop, hm0]
      refine ihj (i + 1) f (some (.otherError m0)) m (by omega) ?_ ?_
      · have harith : i + 1 + j' = i + (j' + 1) := by omega
        rw [harith]
        exact hje
      · intro k hk
        obtain ⟨m2, hm2⟩ := hprev (k + 1) (by omega)
        refine ⟨m2, ?_⟩
        have harith : i + 1 + k = i + (k + 1) := by omega
        rw [harith]
        exact hm2

/-- C8: the `retry` wrapper (1) attempts the wrapped call up to the configured
bound and, when every attempt raises a non-`TypeError` exception, re-raises
the exception of the last attempt; and (2) when some attempt raises a
`TypeError` (after earlier attempts raising only non-`TypeError` errors), it
re-raises it immediately — the outcome is already fixed after attempt `j`, so
running with the full bound equals running with bound `j + 1`. -/
theorem retry_spec {α : Type} (n : Nat) (attempt : Nat → Except PyExc α) :
    (0 < n → (∀ i, i < n → ∃ m, attempt i = .error (.otherError m)) →
      ∃ m, attempt (n - 1) = .error (.otherError m)
        ∧ retry n attempt = .raised (.otherError m))
    ∧ (∀ j m, j < n → attempt j = .error (.typeError m) →
        (∀ k, k < j → ∃ m2, attempt k = .error (.otherError m2)) →
        retry n attempt = .raised (.typeError m)
          ∧ retry n attempt = retry (j + 1) attempt) := by
  constructor
  · intro hn hall
    have h := retryLoop_all_other attempt n 0 none hn (by simpa using hall)
    simpa [retry] using h
  · intro j m hj hje hprev
    have h1 := retryLoop_typeError attempt j 0 n none m hj (by simpa using hje)
      (by simpa using hprev)
    have h2 := retryLoop_typeError attempt j 0 (j + 1) none m (by omega)
      (by simpa using hje) (by simpa using hprev)
    unfold retry
    rw [h1, h2]
    exact ⟨rfl, rfl⟩

/-- Attempt sequence for the C8 witness: a transport error, then a
`TypeError`. -/
def c8Attempt : Nat → Except PyExc Nat := fun i =>
  if i = 0 then .error (.otherError "connection reset")
  else .error (.typeError "unexpected keyword argument")

/-- C8 witness: `retry_spec` at `n = 3` with a `TypeError` on the second
attempt — the wrapper re-raises it and behaves as if the bound were 2. -/
theorem retry_spec_witness :
    retry 3 c8Attempt = .raised (.typeError "unexpected keyword argument")
    ∧ retry 3 c8Attempt = retry 2 c8Attempt :=
  (retry_spec 3 c8Attempt).2 1 "unexpected keyword argument" (by omega)
    (by rfl)
    (fun k hk => ⟨"connection reset", by
      have hk0 : k = 0 := by omega
      rw [hk0]
      rfl⟩)

theorem execute_tool_error_of_unknown {P V R : Type}
    (reg : String → Option (PyTool P V R)) :
    ∀ (calls : List (PyToolCall P)) (acc : List (String × R)),
      (∃ c ∈ calls, reg c.function_name = none) →
      ∃ e, execute_tool reg calls acc = .error e := by
  intro calls
  induction calls with
  | nil =>
    intro acc hmem
    rcases hmem with ⟨d, hd, _⟩
    exact absurd hd (List.not_mem_nil d)
  | cons c cs ih =>
    intro acc hmem
    cases hreg : reg c.function_name with
    | none =>
      exact ⟨.unknownTool c.function_name, by simp [execute_tool, hreg]⟩
    | some tool =>
      cases hval : tool.validate c.function_params with
      | error e =>
        exact ⟨.validationError e, by simp [execute_tool, hreg, hval]⟩
      | ok v =>
        rcases hmem with ⟨d, hd, hdnone⟩
        rcases List.mem_cons.mp hd with hdc | hdcs
        · rw [hdc] at hdnone
          rw [hdnone] at hreg
          exact absurd hreg (by simp)
        · obtain ⟨e, he⟩ := ih (acc ++ [(c.id, tool.func v)]) ⟨d, hdcs, hdnone⟩
          refine ⟨e, ?_⟩
          simp only [execute_tool, hreg, hval]
          exact he

theorem execute_tool_first_unknown {P V R : Type}
    (reg : String → Option (PyTool P V R)) :
    ∀ (pre : List (PyToolCall P)) (c : PyToolCall P)
      (post : List (PyToolCall P)) (acc : List (String × R)),
      reg c.function_name = none →
      (∀ d ∈ pre, ∃ t v, reg d.function_name = some t
        ∧ t.validate d.function_params = Except.ok v) →
      execute_tool reg (pre ++ c :: post) acc
        = .error (.unknownTool c.function_name) := by
  intro pre
  induction pre with
  | nil =>
    intro c post acc hc _
    simp [execute_tool, hc]
  | cons d ds ih =>
    intro c post acc hc hpre
    obtain ⟨t, v, ht, hv⟩ := hpre d (List.mem_cons_self d ds)
    simp only [List.cons_append, execute_tool, ht, hv]
    exact ih c post _ hc (fun d' hd' => hpre d' (List.mem_cons_of_mem _ hd'))

/-- C7 counterexample: a batch whose second call names the unregistered
function `"ghost_tool"`, but whose first call fails schema validation:
execution fails with `ValidationError`, not with `UnknownTool` — so a batch
containing an unknown-name call does not always fail with `UnknownTool`. -/
def c7Registry : String → Option (PyTool String String String) := fun n =>
  if n = "summarize" then
    some ⟨fun _ => Except.error "missing required field", fun v => v⟩
  else none

/-- C7 counterexample theorem (see `c7Registry`): the batch contains a call
to the unregistered `"ghost_tool"`, yet `execute_tool` reports
`ValidationError` for the earlier call instead of `UnknownTool`. -/
theorem execute_tool_validation_preempts_unknown :
    c7Registry "ghost_tool" = none
    ∧ execute_tool c7Registry
        [⟨"summarize", "bad-params", "call_1"⟩, ⟨"ghost_tool", "{}", "call_2"⟩] []
      = .error (.validationError "missing required field") :=
  ⟨rfl, rfl⟩

/-- C7 amended: (1) whenever some call in the batch names a function absent
from the registry, `handle_tool_calls` with `auto_execute_tool=True` raises
some error and leaves the chat history mutated exactly by the assistant
tool-call message appended before execution (`metadata` and `conv_chunks`
untouched, no tool-result messages); (2) when additionally every call before
the first unknown-name call validates successfully, the error is
`UnknownTool` for that call. -/
theorem handle_unknown_tool_spec {P V R : Type} :
    (∀ (h : ChatHistory) (tm : Msg) (infos : List (PyToolCall P))
        (reg : String → Option (PyTool P V R)) (render : R → String)
        (mw : Option Nat),
      (∃ c ∈ infos, reg c.function_name = none) →
      ∃ e, handle_tool_calls h tm infos reg render true mw
          = (.raised e, { h with messages := h.messages ++ [tm] }))
    ∧ (∀ (h : ChatHistory) (tm : Msg) (pre : List (PyToolCall P))
        (c : PyToolCall P) (post : List (PyToolCall P))
        (reg : String → Option (PyTool P V R)) (render : R → String)
        (mw : Option Nat),
      reg c.function_name = none →
      (∀ d ∈ pre, ∃ t v, reg d.function_name = some t
        ∧ t.validate d.function_params = Except.ok v) →
      handle_tool_calls h tm (pre ++ c :: post) reg render true mw
        = (.raised (.unknownTool c.function_name),
            { h with messages := h.messages ++ [tm] })) := by
  constructor
  · intro h tm infos reg render mw hmem
    obtain ⟨e, he⟩ := execute_tool_error_of_unknown reg infos [] hmem
    exact ⟨e, by simp [handle_tool_calls, he]⟩
  · intro h tm pre c post reg render mw hc hpre
    have he := execute_tool_first_unknown reg pre c post [] hc hpre
    simp [handle_tool_calls, he]

/-- History used to instantiate the C7 witness. -/
def c7History : ChatHistory :=
  buildHistory [⟨⟨"system", "p"⟩, false, none⟩, ⟨⟨"user", "q"⟩, false, none⟩]

/-- C7 witness: a single-call batch naming the unregistered `"ghost_tool"`:
`handle_tool_calls` raises `UnknownTool` and the history gains exactly the
assistant tool-call message. -/
theorem handle_unknown_tool_spec_witness :
    handle_tool_calls c7History ⟨"assistant", "tool-call"⟩
        [⟨"ghost_tool", "{}", "call_1"⟩] c7Registry id true (some 5)
      = (.raised (.unknownTool "ghost_tool"),
          { c7History with
            messages := c7History.messages ++ [⟨"assistant", "tool-call"⟩] }) :=
  (handle_unknown_tool_spec (P := String) (V := String) (R := String)).2
    c7History ⟨"assistant", "tool-call"⟩ [] ⟨"ghost_tool", "{}", "call_1"⟩ []
    c7Registry id (some 5) rfl
    (fun d hd => absurd hd (List.not_mem_nil d))

/-- History used for the C9 counterexample and witness: a fresh agent's
history right after `invoke` has appended the user query. -/
def c9History : ChatHistory :=
  buildHistory [⟨⟨"system", "p"⟩, false, none⟩, ⟨⟨"user", "q"⟩, false, none⟩]

/-- C9 counterexample: with the default `memory_window = 5` and the history
`[system, user]`, the request built by step 3 of `invoke` is
`[system, system, user]` — the system message occurs twice, while the claim's
description (the system message plus the most recent exchanges, system
appearing once) contains it only once. -/
theorem invoke_request_duplicates_system :
    invoke_request c9History 5
      = some [⟨"system", "p"⟩, ⟨"system", "p"⟩, ⟨"user", "q"⟩]
    ∧ List.count (⟨"system", "p"⟩ : Msg)
        [(⟨"system", "p"⟩ : Msg), ⟨"system", "p"⟩, ⟨"user", "q"⟩] = 2 := by
  constructor
  · rfl
  · decide

/-- C9 amended: the request sent to `generate` is the system message
prepended to the full result of `get_history(memory_window - 1)` — and that
result itself always contains the system message (either in place, or
re-prepended by the window cut), so the system message occurs at least twice
in the request whenever the history starts with one. Stated for
`memory_window ≥ 1`, where Python's `memory_window - 1` is the truncated
subtraction. -/
theorem invoke_request_spec (h : ChatHistory) (mw : Nat) (m0 : Msg)
    (rest : List Msg) (_hmw : 1 ≤ mw) (hm : h.messages = m0 :: rest)
    (hrole : m0.role = "system") :
    invoke_request h mw
      = some (m0 :: (h.get_history (some (mw - 1)) false).messages)
    ∧ m0 ∈ (h.get_history (some (mw - 1)) false).messages := by
  constructor
  · simp [invoke_request, hm]
  · exact mem_get_history_system h (some (mw - 1)) false m0 rest hm hrole

/-- C9 witness: `invoke_request_spec` at the concrete post-query history and
the default window. -/
theorem invoke_request_spec_witness :
    invoke_request c9History 5
      = some (⟨"system", "p"⟩ :: (c9History.get_history (some 4) false).messages)
    ∧ (⟨"system", "p"⟩ : Msg) ∈ (c9History.get_history (some 4) false).messages :=
  invoke_request_spec c9History 5 ⟨"system", "p"⟩ [⟨"user", "q"⟩]
    (by omega) rfl rfl

/-- History for the C10 demonstrations: system prompt plus three
user/assistant exchanges (`conv_chunks = [1, 3, 5, 7]`). -/
def c10History : ChatHistory :=
  buildHistory [⟨⟨"system", "p"⟩, false, none⟩, ⟨⟨"user", "u1"⟩, false, none⟩,
    ⟨⟨"assistant", "a1"⟩, false, none⟩, ⟨⟨"user", "u2"⟩, false, none⟩,
    ⟨⟨"assistant", "a2"⟩, false, none⟩, ⟨⟨"user", "u3"⟩, false, none⟩,
    ⟨⟨"assistant", "a3"⟩, false, none⟩]

/-- History without a system prompt for the C10 witness
(`conv_chunks = [2, 4]`). -/
def c10NoSys : ChatHistory :=
  buildHistory [⟨⟨"user", "x1"⟩, false, none⟩, ⟨⟨"assistant", "y1"⟩, false, none⟩,
    ⟨⟨"user", "x2"⟩, false, none⟩, ⟨⟨"assistant", "y2"⟩, false, none⟩]

/-- C10: `get_history` is not a pure read. (1) When the window is exceeded
and a system prompt exists, the call overwrites `conv_chunks` with `[1]`
followed by the last `memory_window` chunk entries. (2) When no system prompt
exists, `conv_chunks` is unchanged and only the differently named attribute
`conv_chunk` is written (with the index-adjusted entries). (3) A subsequent
call with the same argument can return a different, shorter message list:
after the windowing call compacted `c10History`'s chunks and one further
assistant message was appended, the same-argument call returns 2 messages
where the first returned 3. (4) The mutation alone already changes later
same-argument results: calling `get_history(3)` before and after an
interposed `get_history(2)` — with no appends at all — yields 5 messages,
then all 7, because the compaction discarded the chunk boundaries the second
`get_history(3)` would have needed. -/
theorem get_history_frame_effects :
    (∀ (h : ChatHistory) (w : Nat) (im : Bool) (m0 : Msg) (rest : List Msg),
      h.messages = m0 :: rest → m0.role = "system" → w ≠ 0 →
      w < h.conv_chunks.length →
      (h.get_history (some w) im).state.conv_chunks
        = 1 :: h.conv_chunks.drop (h.conv_chunks.length - w))
    ∧ (∀ (h : ChatHistory) (w : Nat) (im : Bool) (m0 : Msg) (rest : List Msg),
      h.messages = m0 :: rest → ¬ m0.role = "system" → w ≠ 0 →
      w < h.conv_chunks.length →
      (h.get_history (some w) im).state.conv_chunks = h.conv_chunks
      ∧ (h.get_history (some w) im).state.conv_chunk
        = some ((h.conv_chunks.drop (h.conv_chunks.length - w)).map
            (fun i => (i : Int) -
              (h.conv_chunks.take (h.conv_chunks.length - w)).foldl
                (fun a b => a + (b : Int)) 0)))
    ∧ ((c10History.get_history (some 2) false).messages.length = 3
      ∧ (((c10History.get_history (some 2) false).state.save_message
            ⟨"assistant", "a4"⟩ false none).get_history (some 2) false).messages.length = 2
      ∧ (((c10History.get_history (some 2) false).state.save_message
            ⟨"assistant", "a4"⟩ false none).get_history (some 2) false).messages
          ≠ (c10History.get_history (some 2) false).messages)
    ∧ ((c10History.get_history (some 3) false).messages.length = 5
      ∧ (((c10History.get_history (some 3) false).state.get_history (some 2)
            false).state.get_history (some 3) false).messages.length = 7
      ∧ (((c10History.get_history (some 3) false).state.get_history (some 2)
            false).state.get_history (some 3) false).messages
          ≠ (c10History.get_history (some 3) false).messages) := by
  refine ⟨?_, ?_, by decide, by decide⟩
  · intro h w im m0 rest hm hrole hw hlen
    have hc : w ≠ 0 ∧ w < h.conv_chunks.length := ⟨hw, hlen⟩
    simp only [ChatHistory.get_history, if_pos hc,
      get_system_prompt_some h m0 rest hm hrole]
  · intro h w im m0 rest hm hrole hw hlen
    have hc : w ≠ 0 ∧ w < h.conv_chunks.length := ⟨hw, hlen⟩
    simp only [ChatHistory.get_history, if_pos hc,
      get_system_prompt_none h m0 rest hm hrole]
    exact ⟨trivial, trivial⟩

/-- C10 witness: the frame-effect theorem instantiated at `c10History`
(system prompt present, window 2) and `c10NoSys` (no system prompt,
window 1). -/
theorem get_history_frame_effects_witness :
    (c10History.get_history (some 2) true).state.conv_chunks
      = 1 :: c10History.conv_chunks.drop (c10History.conv_chunks.length - 2)
    ∧ ((c10NoSys.get_history (some 1) false).state.conv_chunks
        = c10NoSys.conv_chunks
      ∧ (c10NoSys.get_history (some 1) false).state.conv_chunk
        = some ((c10NoSys.conv_chunks.drop (c10NoSys.conv_chunks.length - 1)).map
            (fun i => (i : Int) -
              (c10NoSys.conv_chunks.take (c10NoSys.conv_chunks.length - 1)).foldl
                (fun a b => a + (b : Int)) 0))) :=
  ⟨get_history_frame_effects.1 c10History 2 true ⟨"system", "p"⟩
      [⟨"user", "u1"⟩, ⟨"assistant", "a1"⟩, ⟨"user", "u2"⟩, ⟨"assistant", "a2"⟩,
        ⟨"user", "u3"⟩, ⟨"assistant", "a3"⟩] rfl rfl (by omega) (by decide),
    get_history_frame_effects.2.1 c10NoSys 1 false ⟨"user", "x1"⟩
      [⟨"assistant", "y1"⟩, ⟨"user", "x2"⟩, ⟨"assistant", "y2"⟩] rfl
      (by decide) (by omega) (by decide)⟩

end Universa






